import Mathlib

/-!
Verification development for the org-charm repository.

This file gives a shallow embedding of the rendering engine (`ui/render.go`)
and the animation compositor / spring-tick logic (`ui/model.go`), and proves
or refutes the frozen claims about them.

Modelling conventions:
* Go strings are modelled as Lean `String`/`List Char`; `len` on the ASCII
  strings the claims are about is modelled by character length.
* Go `int` is modelled by `ℤ` where the source can go negative (widths) and
  by `ℕ` where the source value is structurally non-negative (levels, indents,
  indices, clamped column widths).
* `float64` arithmetic is idealized as exact rational (`ℚ`) arithmetic;
  square roots of non-square rationals are handled either by exact
  squared-distance comparisons (wave compositor) or by passing the computed
  distance as a parameter (poof compositor).
* `strings.Repeat` panics on a negative count; it is modelled by `goRepeat`
  returning `Option String` (`none` = panic), and the renderers that can
  perform such a repeat are `Option`-valued.
* External collaborators (lipgloss styles, the chroma highlighter, `fmt`'s
  `%v` formatting, `time.Time` formatting, crypto randomness) are modelled
  as opaque capabilities, following the spec's component boundaries.
-/

namespace OrgCharm

/-- A lipgloss style, modelled as an opaque capability.
`render` models `style.Render(s)`; `renderW w` models `style.Width(w).Render(s)`. -/
structure Style where
  render : String → String
  renderW : ℤ → String → String

/-- The `Styles` struct from `ui/styles.go`, restricted to the fields used by
`ui/render.go`.  Each field is an opaque style capability.
(`CheckboxHalfDone` is the source's field for the `[-]` checkbox state.) -/
structure Styles where
  Done : Style
  Todo : Style
  Priority : Style
  Tag : Style
  Heading1 : Style
  Heading2 : Style
  Heading3 : Style
  Heading4 : Style
  BlockHeader : Style
  CodeBlock : Style
  Quote : Style
  Example : Style
  Verse : Style
  Center : Style
  Paragraph : Style
  ListBullet : Style
  ListItem : Style
  CheckboxDone : Style
  CheckboxHalfDone : Style
  CheckboxEmpty : Style
  DescTerm : Style
  DescSeparator : Style
  TableBorder : Style
  TableHeader : Style
  TableCell : Style
  HRule : Style
  Keyword : Style
  KeywordValue : Style
  DrawerHeader : Style
  Property : Style
  Timestamp : Style
  Scheduled : Style
  Deadline : Style
  Closed : Style
  Bold : Style
  Italic : Style
  Underline : Style
  Verbatim : Style
  InlineCode : Style
  Strikethrough : Style
  Statistics : Style
  Link : Style
  FootnoteLabel : Style
  FootnoteContent : Style
  FootnoteRef : Style

/-- A `time.Time` value, modelled by the two format outputs the renderer uses:
`fmtDate` is `Format("2006-01-02 Mon")`, `fmtFull` is
`Format("2006-01-02 Mon 15:04")`. -/
structure GoTime where
  fmtDate : String
  fmtFull : String

/-- The go-org document node tree (`goorg.Node`), as consumed by the renderer.
The Go type switch is over an open interface; the constructor `unknown` stands
for every node type not named in either dispatcher, carrying the string that
`fmt.Sprintf("%v", n)` would produce for the value. -/
inductive Node where
  | headline (lvl : Nat) (status priority : String) (tags : List String)
      (title : List Node) (children : List Node)
  | block (name : String) (parameters : List String) (children : List Node)
  | paragraph (children : List Node)
  | list (items : List Node)
  | listItem (bullet status : String) (children : List Node)
  | descriptiveListItem (term details : List Node)
  | table (rows : List (Bool × List (List Node)))
  | horizontalRule
  | keyword (key value : String)
  | propertyDrawer (properties : List (List String))
  | drawer (name : String) (children : List Node)
  | exampleBlock (children : List Node)
  | footnoteDefinition (name : String) (children : List Node)
  | text (content : String)
  | emphasis (kind : String) (content : List Node)
  | regularLink (url : String) (description : List Node)
  | statisticToken (content : String)
  | timestamp (time : GoTime) (isDate : Bool) (interval : String)
  | footnoteLink (name : String)
  | explicitLineBreak
  | lineBreak
  | unknown (repr : String)

/-- A table row (`goorg.Row`): the `IsSpecial` separator flag and the columns,
each column holding its inline children (`goorg.Column.Children`). -/
abbrev TableRow := Bool × List (List Node)

/-- `Row.IsSpecial`. -/
def TableRow.isSpecial (row : TableRow) : Bool := row.1

/-- `Row.Columns`, each column represented by its `Children`. -/
def TableRow.columns (row : TableRow) : List (List Node) := row.2

/-- External capabilities consumed by the renderer:
`chromaFormat code lang` models chroma's tokenise+format pipeline (`none` on
either error path of `highlightCode`); `goFmt` models `fmt.Sprintf("%v", n)`
for nodes hitting a dispatcher's default branch. -/
structure Ext where
  chromaFormat : String → String → Option String
  goFmt : Node → String

/-- The `Renderer` struct from `ui/render.go`. -/
structure Renderer where
  styles : Styles
  width : ℤ

/-- `NewRenderer` from `ui/render.go`. -/
def NewRenderer (styles : Styles) (width : ℤ) : Renderer :=
  { styles := styles, width := width }

/-- `strings.Repeat` for a count that is structurally non-negative. -/
def repeatStr (s : String) (n : ℕ) : String :=
  String.join (List.replicate n s)

/-- `strings.Repeat` with a Go `int` count: panics (`none`) when the count is
negative. -/
def goRepeat (s : String) (count : ℤ) : Option String :=
  if count < 0 then none else some (repeatStr s count.toNat)

/-- `strings.HasPrefix` (the pattern argument second). -/
def goStartsWith (s pre : String) : Bool :=
  pre.toList.isPrefixOf s.toList

/-- `strings.HasSuffix`. -/
def goHasSuffix (s suf : String) : Bool :=
  suf.toList.isSuffixOf s.toList

/-- `strings.ToUpper` (ASCII, which is all the renderer compares). -/
def goToUpper (s : String) : String :=
  String.mk (s.toList.map Char.toUpper)

/-- `strings.TrimSuffix(s, "\n")`: removes one trailing newline if present. -/
def trimSuffixNewline (s : String) : String :=
  if goHasSuffix s "\n" then String.mk s.toList.dropLast else s

/-! ### Inactive-timestamp scanning (`render.go` lines 559-614) -/

/-- The per-position test of `isInactiveTimestamp`'s loop body: positions 4
and 7 must hold `'-'` and every other position a digit (`'0' ≤ c ≤ '9'`,
the negation of the source's `c < '0' || c > '9'`). -/
def tsPosOK (j : ℕ) (c : Char) : Bool :=
  if j = 4 ∨ j = 7 then decide (c = '-') else decide ('0' ≤ c ∧ c ≤ '9')

/-- The position check loop of `isInactiveTimestamp`; the Go loop returns
`false` at the first offending position. -/
def checkTsAt : List Char → ℕ → Bool
  | [], _ => true
  | c :: cs, i => tsPosOK i c && checkTsAt cs (i + 1)

/-- `isInactiveTimestamp` from `ui/render.go`: content shorter than 10 is
rejected, otherwise the first 10 characters are checked positionally. -/
def isInactiveTimestamp (content : List Char) : Bool :=
  if content.length < 10 then false
  else checkTsAt (content.take 10) 0

/-- The scanning loop of `renderInactiveTimestamps` (`render.go` 563-590),
with the `for` loop's progress made explicit by a fuel argument (each
consuming iteration drops at least two characters past a `[...]` pair, so
`length + 1` fuel at the top-level call is more than enough).
`styleTs` is `r.styles.Timestamp.Render`. -/
def scanTsLoop (styleTs : String → String) : ℕ → List Char → List Char
  | 0, remaining => remaining
  | fuel + 1, remaining =>
    match remaining.findIdx? (· = '[') with
    | none => remaining
    | some start =>
      match (remaining.drop start).findIdx? (· = ']') with
      | none => remaining
      | some endRel =>
        let e := endRel + start
        let tsContent := (remaining.drop (start + 1)).take (e - (start + 1))
        if 10 ≤ tsContent.length ∧ isInactiveTimestamp tsContent then
          remaining.take start
            ++ (styleTs ("[" ++ String.mk tsContent ++ "]")).toList
            ++ scanTsLoop styleTs fuel (remaining.drop (e + 1))
        else
          remaining.take (e + 1) ++ scanTsLoop styleTs fuel (remaining.drop (e + 1))

/-- `renderInactiveTimestamps` from `ui/render.go`. -/
def renderInactiveTimestamps (styleTs : String → String) (content : String) : String :=
  String.mk (scanTsLoop styleTs (content.length + 1) content.toList)

/-- The planning-keyword table of `renderText` (`render.go` 530-537). -/
def planningKeywords (st : Styles) : List (String × (String → String)) :=
  [("SCHEDULED:", st.Scheduled.render),
   ("DEADLINE:", st.Deadline.render),
   ("CLOSED:", st.Closed.render)]

/-- The keyword loop of `renderText` (`render.go` 539-552): an exact keyword
match at the start, or the keyword preceded by one space; otherwise the whole
content goes through the inactive-timestamp scan. -/
def renderTextLoop (st : Styles) : List (String × (String → String)) → String → String
  | [], content => renderInactiveTimestamps st.Timestamp.render content
  | (kw, sty) :: rest, content =>
    if goStartsWith content kw then
      sty kw ++ renderInactiveTimestamps st.Timestamp.render (content.drop kw.length)
    else if goStartsWith content (" " ++ kw) then
      " " ++ sty kw
        ++ renderInactiveTimestamps st.Timestamp.render (content.drop (kw.length + 1))
    else renderTextLoop st rest content

/-- `renderText` from `ui/render.go`. -/
def renderText (st : Styles) (content : String) : String :=
  renderTextLoop st (planningKeywords st) content

/-- `renderTimestamp` from `ui/render.go`. -/
def renderTimestamp (st : Styles) (time : GoTime) (isDate : Bool) (interval : String) :
    String :=
  let formatted := if isDate then time.fmtDate else time.fmtFull
  let formatted := if interval ≠ "" then formatted ++ " " ++ interval else formatted
  st.Timestamp.render ("📅 " ++ formatted)

/-- `renderFootnoteLink` from `ui/render.go`. -/
def renderFootnoteLink (st : Styles) (name : String) : String :=
  st.FootnoteRef.render ("[" ++ name ++ "]")

mutual

/-- `renderInlineNodes` from `ui/render.go`. -/
def renderInlineNodes (r : Renderer) (ext : Ext) : List Node → String
  | [] => ""
  | n :: ns => renderInlineNode r ext n ++ renderInlineNodes r ext ns

/-- `renderInlineNode` from `ui/render.go`: the inline dispatcher.  The final
catch-all arm is the source's `default: return fmt.Sprintf("%v", n)`. -/
def renderInlineNode (r : Renderer) (ext : Ext) : Node → String
  | .text content => renderText r.styles content
  | .emphasis kind content => renderEmphasis r ext kind content
  | .regularLink url description => renderLink r ext url description
  | .statisticToken content => r.styles.Statistics.render ("[" ++ content ++ "]")
  | .timestamp time isDate interval => renderTimestamp r.styles time isDate interval
  | .footnoteLink name => renderFootnoteLink r.styles name
  | .explicitLineBreak => "\n"
  | .lineBreak => "\n"
  | n => ext.goFmt n

/-- `renderEmphasis` from `ui/render.go`: the marker character is the kind. -/
def renderEmphasis (r : Renderer) (ext : Ext) (kind : String) (content : List Node) :
    String :=
  let c := renderInlineNodes r ext content
  match kind with
  | "*" => r.styles.Bold.render c
  | "/" => r.styles.Italic.render c
  | "_" => r.styles.Underline.render c
  | "=" => r.styles.Verbatim.render c
  | "~" => r.styles.InlineCode.render c
  | "+" => r.styles.Strikethrough.render c
  | _ => c

/-- `renderLink` from `ui/render.go`. -/
def renderLink (r : Renderer) (ext : Ext) (url : String) (description : List Node) :
    String :=
  let text := if description.length > 0 then renderInlineNodes r ext description else url
  let displayText := if text.length > 40 then text.take (40 - 3) ++ "..." else text
  let icon :=
    if goStartsWith url "http://" || goStartsWith url "https://" then "🔗"
    else if goStartsWith url "file:" then "📄"
    else if goStartsWith url "mailto:" then "📧"
    else if goHasSuffix url ".org" then "📝"
    else "→"
  r.styles.Link.render (icon ++ " " ++ displayText)

end

/-! ### Non-recursive block renderers (`ui/render.go`) -/

/-- The accumulation loop of `extractBlockText`: `Text` nodes contribute their
content, every other node its `%v` formatting. -/
def extractBlockTextLoop (ext : Ext) : List Node → String
  | [] => ""
  | .text content :: ns => content ++ extractBlockTextLoop ext ns
  | n :: ns => ext.goFmt n ++ extractBlockTextLoop ext ns

/-- `extractBlockText` from `ui/render.go`. -/
def extractBlockText (ext : Ext) (nodes : List Node) : String :=
  trimSuffixNewline (extractBlockTextLoop ext nodes)

/-- `highlightCode` from `ui/render.go`: empty language means no highlighting;
lexer/style/formatter lookup and both error returns are inside the external
chroma capability, which yields `none` exactly when the source returns the
unhighlighted code. -/
def highlightCode (ext : Ext) (code lang : String) : String :=
  if lang = "" then code
  else match ext.chromaFormat code lang with
    | some highlighted => highlighted
    | none => code

/-- `renderSourceBlock` from `ui/render.go` (lines 157-192).  `Option`-valued
because it performs `strings.Repeat` with computed `int` counts; the source
clamps `headerWidth` to at least 10 and `lineLen` to at least 0. -/
def renderSourceBlock (r : Renderer) (ext : Ext) (parameters : List String)
    (children : List Node) : Option String := do
  let content := extractBlockText ext children
  let lang := match parameters with
    | p :: _ => p
    | [] => ""
  let highlighted := highlightCode ext content lang
  let headerWidth : ℤ := r.width - 8
  let headerWidth := if headerWidth < 10 then 10 else headerWidth
  let header ←
    if lang ≠ "" then
      let langLabel := " " ++ lang ++ " "
      let lineLen : ℤ := headerWidth - (langLabel.length : ℤ) - 2
      let lineLen := if lineLen < 0 then 0 else lineLen
      (goRepeat "─" lineLen).map fun mid =>
        r.styles.BlockHeader.render ("┌─" ++ langLabel ++ mid ++ "┐")
    else
      (goRepeat "─" headerWidth).map fun mid =>
        r.styles.BlockHeader.render ("┌" ++ mid ++ "┐")
  let footer ← (goRepeat "─" headerWidth).map fun mid =>
    r.styles.BlockHeader.render ("└" ++ mid ++ "┘")
  let codeBlock := r.styles.CodeBlock.renderW (r.width - 6) highlighted
  pure (header ++ "\n" ++ codeBlock ++ "\n" ++ footer)

/-- `renderQuoteBlock` from `ui/render.go`. -/
def renderQuoteBlock (r : Renderer) (ext : Ext) (children : List Node) : String :=
  r.styles.Quote.renderW (r.width - 8) (renderInlineNodes r ext children)

/-- `renderExampleBlock` from `ui/render.go`. -/
def renderExampleBlock (r : Renderer) (ext : Ext) (children : List Node) : String :=
  r.styles.Example.renderW (r.width - 6) (extractBlockText ext children)

/-- `renderVerseBlock` from `ui/render.go`. -/
def renderVerseBlock (r : Renderer) (ext : Ext) (children : List Node) : String :=
  r.styles.Verse.renderW (r.width - 6) (extractBlockText ext children)

/-- `renderCenterBlock` from `ui/render.go`. -/
def renderCenterBlock (r : Renderer) (ext : Ext) (children : List Node) : String :=
  r.styles.Center.renderW (r.width - 6) (renderInlineNodes r ext children)

/-- `renderBlock` from `ui/render.go`: dispatch on the upper-cased block name;
the default arm is the generic bordered text box. -/
def renderBlock (r : Renderer) (ext : Ext) (name : String) (parameters : List String)
    (children : List Node) : Option String :=
  match goToUpper name with
  | "SRC" => renderSourceBlock r ext parameters children
  | "QUOTE" => some (renderQuoteBlock r ext children)
  | "EXAMPLE" => some (renderExampleBlock r ext children)
  | "VERSE" => some (renderVerseBlock r ext children)
  | "CENTER" => some (renderCenterBlock r ext children)
  | _ => some (r.styles.CodeBlock.renderW (r.width - 6) (extractBlockText ext children))

/-- `renderParagraph` from `ui/render.go`. -/
def renderParagraph (r : Renderer) (ext : Ext) (children : List Node) : String :=
  r.styles.Paragraph.renderW (r.width - 4) (renderInlineNodes r ext children)

/-- `renderHorizontalRule` from `ui/render.go` (lines 444-446):
`strings.Repeat("─", r.width-4)` with no clamp, so the repeat count is
negative (a panic, `none`) whenever `r.width < 4`. -/
def renderHorizontalRule (r : Renderer) : Option String :=
  (goRepeat "─" (r.width - 4)).map r.styles.HRule.render

/-- `renderKeyword` from `ui/render.go`. -/
def renderKeyword (st : Styles) (key value : String) : String :=
  match goToUpper key with
  | "TITLE" | "AUTHOR" | "DATE" | "OPTIONS" => ""
  | _ => st.Keyword.render ("#+" ++ key ++ ": ") ++ st.KeywordValue.render value

/-- The property loop of `renderPropertyDrawer`: entries with fewer than two
components are skipped. -/
def propertyLines (st : Styles) : List (List String) → String
  | [] => ""
  | prop :: ps =>
    (if prop.length ≥ 2 then
      st.Property.render (":" ++ prop.getD 0 "" ++ ": " ++ prop.getD 1 "") ++ "\n"
    else "") ++ propertyLines st ps

/-- `renderPropertyDrawer` from `ui/render.go`. -/
def renderPropertyDrawer (st : Styles) (properties : List (List String)) : String :=
  st.DrawerHeader.render ":PROPERTIES:" ++ "\n"
    ++ propertyLines st properties
    ++ st.DrawerHeader.render ":END:"

/-- `renderDrawer` from `ui/render.go`. -/
def renderDrawer (r : Renderer) (ext : Ext) (name : String) (children : List Node) :
    String :=
  r.styles.DrawerHeader.render (":" ++ name ++ ":") ++ "\n"
    ++ renderInlineNodes r ext children ++ "\n"
    ++ r.styles.DrawerHeader.render ":END:"

/-- `renderExample` from `ui/render.go` (the `goorg.Example` node). -/
def renderExampleNode (r : Renderer) (ext : Ext) (children : List Node) : String :=
  r.styles.Example.renderW (r.width - 6) (extractBlockText ext children)

/-- `renderFootnoteDefinition` from `ui/render.go`. -/
def renderFootnoteDefinition (r : Renderer) (ext : Ext) (name : String)
    (children : List Node) : String :=
  let content := renderInlineNodes r ext children
  let label := r.styles.FootnoteLabel.render ("[" ++ name ++ "]")
  label ++ " " ++ r.styles.FootnoteContent.render content

/-- `renderDescriptiveListItem` from `ui/render.go`. -/
def renderDescriptiveListItem (r : Renderer) (ext : Ext) (term details : List Node) :
    String :=
  let termS := renderInlineNodes r ext term
  let detailsS := renderInlineNodes r ext details
  r.styles.ListBullet.render "•" ++ " "
    ++ r.styles.DescTerm.render termS ++ " "
    ++ r.styles.DescSeparator.render "::" ++ " "
    ++ r.styles.ListItem.render detailsS

/-! ### Table rendering (`ui/render.go` lines 357-442) -/

/-- The per-cell clamp of the width pass:
`width := len(content); if width < 3 { width = 3 }`. -/
def clampW (n : ℕ) : ℕ :=
  if n < 3 then 3 else n

/-- `clampW` is a lower clamp to 3. -/
theorem clampW_eq_max (n : ℕ) : clampW n = max 3 n := by
  unfold clampW
  split <;> omega

/-- The inner column loop of `renderTable`'s width pass, starting at column
index `i` with accumulated widths `acc`: the cell's rendered length is clamped
up to 3 (`clampW`), then either appended (first row reaching this column) or
used to enlarge the stored width. -/
def updateColWidthsFrom (r : Renderer) (ext : Ext) :
    List (List Node) → ℕ → List ℕ → List ℕ
  | [], _, acc => acc
  | col :: cols, i, acc =>
    let content := renderInlineNodes r ext col
    let width := clampW content.length
    let acc :=
      if i ≥ acc.length then acc ++ [width]
      else if width > acc.getD i 0 then acc.set i width
      else acc
    updateColWidthsFrom r ext cols (i + 1) acc

/-- The row loop of `renderTable`'s width pass: separator rows are skipped. -/
def tableColWidthsLoop (r : Renderer) (ext : Ext) : List TableRow → List ℕ → List ℕ
  | [], acc => acc
  | row :: rows, acc =>
    if row.isSpecial then tableColWidthsLoop r ext rows acc
    else tableColWidthsLoop r ext rows (updateColWidthsFrom r ext row.columns 0 acc)

/-- Pass 1 of `renderTable`: the effective column widths. -/
def tableColWidths (r : Renderer) (ext : Ext) (rows : List TableRow) : List ℕ :=
  tableColWidthsLoop r ext rows []

/-- The per-column part of `renderTable`'s `renderBorder` helper: a fill run
of width `w + 2` per column, with `mid` between adjacent columns. -/
def borderCells (st : Styles) (mid fill : String) : List ℕ → String
  | [] => ""
  | [w] => st.TableBorder.render (repeatStr fill (w + 2))
  | w :: ws =>
    st.TableBorder.render (repeatStr fill (w + 2)) ++ st.TableBorder.render mid
      ++ borderCells st mid fill ws

/-- The `renderBorder` closure of `renderTable`. -/
def tableRenderBorder (st : Styles) (colWidths : List ℕ) (left mid right fill : String) :
    String :=
  st.TableBorder.render left ++ borderCells st mid fill colWidths
    ++ st.TableBorder.render right

/-- `fmt.Sprintf(" %-*s ", width, content)`: left-justified padding to `width`
(no truncation), with one space on each side. -/
def padCell (content : String) (width : ℕ) : String :=
  " " ++ content ++ repeatStr " " (width - content.length) ++ " "

/-- The cell loop of a non-separator table row, starting at column index `i`. -/
def renderTableCells (r : Renderer) (ext : Ext) (colWidths : List ℕ) (isHeader : Bool) :
    List (List Node) → ℕ → String
  | [], _ => ""
  | col :: cols, i =>
    let content := renderInlineNodes r ext col
    let width := if i < colWidths.length then colWidths.getD i 3 else 3
    let padded := padCell content width
    (if isHeader then r.styles.TableHeader.render padded
     else r.styles.TableCell.render padded)
      ++ r.styles.TableBorder.render "│"
      ++ renderTableCells r ext colWidths isHeader cols (i + 1)

/-- The row loop of `renderTable`'s pass 2; `allRows` is the full row list,
consulted for the header-row test
`rowIdx == 0 && len(table.Rows) > 1 && table.Rows[1].IsSpecial`. -/
def renderTableRows (r : Renderer) (ext : Ext) (allRows : List TableRow)
    (colWidths : List ℕ) : List TableRow → ℕ → String
  | [], _ => ""
  | row :: rest, rowIdx =>
    (if row.isSpecial then
      tableRenderBorder r.styles colWidths "├" "┼" "┤" "─" ++ "\n"
    else
      let isHeader :=
        rowIdx = 0 ∧ allRows.length > 1 ∧ (allRows.getD 1 (false, [])).isSpecial
      r.styles.TableBorder.render "│"
        ++ renderTableCells r ext colWidths isHeader row.columns 0 ++ "\n")
      ++ renderTableRows r ext allRows colWidths rest (rowIdx + 1)

/-- `renderTable` from `ui/render.go`: empty-row and no-computable-columns
early returns, then top border, rows, bottom border. -/
def renderTable (r : Renderer) (ext : Ext) (rows : List TableRow) : String :=
  if rows.length = 0 then ""
  else
    let colWidths := tableColWidths r ext rows
    if colWidths.length = 0 then ""
    else
      tableRenderBorder r.styles colWidths "╭" "┬" "╮" "─" ++ "\n"
        ++ renderTableRows r ext rows colWidths rows 0
        ++ tableRenderBorder r.styles colWidths "╰" "┴" "╯" "─"

/-! ### The block-level dispatcher and the node renderers that recurse through
it (`ui/render.go` lines 31-134, 255-345).  `Option`-valued: a `none` is a
`strings.Repeat` panic reached through `renderHorizontalRule` or
`renderSourceBlock`. -/

mutual

/-- `RenderNodes` from `ui/render.go`: non-empty renderings are emitted each
followed by a newline. -/
def RenderNodes (r : Renderer) (ext : Ext) : List Node → Option String
  | [] => some ""
  | n :: ns => do
    let rendered ← RenderNode r ext n
    let rest ← RenderNodes r ext ns
    pure ((if rendered ≠ "" then rendered ++ "\n" else "") ++ rest)
termination_by ns => (sizeOf ns, 0)

/-- `RenderNode` from `ui/render.go`: the block-level dispatcher.  The final
arm is the source's `default: return ""`; inline node kinds also fall through
to it. -/
def RenderNode (r : Renderer) (ext : Ext) : Node → Option String
  | .headline lvl status priority tags title children =>
    renderHeadline r ext lvl status priority tags title children
  | .block name parameters children => renderBlock r ext name parameters children
  | .paragraph children => some (renderParagraph r ext children)
  | .list items => renderList r ext items
  | .listItem bullet status children => renderListItem r ext bullet status children 0
  | .descriptiveListItem term details =>
    some (renderDescriptiveListItem r ext term details)
  | .table rows => some (renderTable r ext rows)
  | .horizontalRule => renderHorizontalRule r
  | .keyword key value => some (renderKeyword r.styles key value)
  | .propertyDrawer properties => some (renderPropertyDrawer r.styles properties)
  | .drawer name children => some (renderDrawer r ext name children)
  | .exampleBlock children => some (renderExampleNode r ext children)
  | .footnoteDefinition name children =>
    some (renderFootnoteDefinition r ext name children)
  | _ => some ""
termination_by n => (sizeOf n, 3)

/-- `renderHeadline` from `ui/render.go`.  Its child loop is the same
append-nonempty-plus-newline loop as `RenderNodes` (source lines 125-131). -/
def renderHeadline (r : Renderer) (ext : Ext) (lvl : ℕ) (status priority : String)
    (tags : List String) (title children : List Node) : Option String := do
  let stars := repeatStr "★" lvl
  let titleS := renderInlineNodes r ext title
  let statusS :=
    if status ≠ "" then
      if status = "DONE" then r.styles.Done.render status ++ " "
      else r.styles.Todo.render status ++ " "
    else ""
  let priorityS :=
    if priority ≠ "" then r.styles.Priority.render ("[#" ++ priority ++ "]") ++ " "
    else ""
  let tagsS :=
    if tags.length > 0 then
      " " ++ r.styles.Tag.render (":" ++ String.intercalate ":" tags ++ ":")
    else ""
  let headline := stars ++ " " ++ statusS ++ priorityS ++ titleS ++ tagsS
  let style := match lvl with
    | 1 => r.styles.Heading1
    | 2 => r.styles.Heading2
    | 3 => r.styles.Heading3
    | _ => r.styles.Heading4
  let childrenS ← RenderNodes r ext children
  pure (style.render headline ++ "\n" ++ childrenS)
termination_by (sizeOf children, 2)

/-- `renderList` from `ui/render.go`: a type switch over the items with no
default, so item nodes of any other kind contribute nothing. -/
def renderList (r : Renderer) (ext : Ext) : List Node → Option String
  | [] => some ""
  | .listItem bullet status children :: items => do
    let s ← renderListItem r ext bullet status children 0
    let rest ← renderList r ext items
    pure (s ++ "\n" ++ rest)
  | .descriptiveListItem term details :: items => do
    let rest ← renderList r ext items
    pure (renderDescriptiveListItem r ext term details ++ "\n" ++ rest)
  | _ :: items => renderList r ext items
termination_by items => (sizeOf items, 2)

/-- `renderListItem` from `ui/render.go`. -/
def renderListItem (r : Renderer) (ext : Ext) (bullet status : String)
    (children : List Node) (indent : ℕ) : Option String := do
  let indentStr := repeatStr "  " indent
  let bulletS :=
    if goStartsWith bullet "1" || bullet.toList.any Char.isDigit then bullet else "•"
  let checkbox :=
    match status with
    | "X" | "x" => r.styles.CheckboxDone.render "[✓]" ++ " "
    | "-" => r.styles.CheckboxHalfDone.render "[~]" ++ " "
    | " " => r.styles.CheckboxEmpty.render "[ ]" ++ " "
    | _ => ""
  let cn ← listItemChildrenFold r ext children indent
  pure (indentStr ++ r.styles.ListBullet.render bulletS ++ " " ++ checkbox
    ++ r.styles.ListItem.render cn.1 ++ cn.2)
termination_by (sizeOf children, 1)

/-- The child loop of `renderListItem` (source lines 297-310), accumulating
`content` and `nestedContent` separately: paragraphs contribute their inline
rendering to `content`, nested lists contribute an indented rendering to
`nestedContent`, and any other child goes through the generic dispatcher. -/
def listItemChildrenFold (r : Renderer) (ext : Ext) :
    List Node → ℕ → Option (String × String)
  | [], _ => some ("", "")
  | .paragraph pcs :: cs, indent => do
    let rest ← listItemChildrenFold r ext cs indent
    pure (renderInlineNodes r ext pcs ++ rest.1, rest.2)
  | .list litems :: cs, indent => do
    let nested ← renderListWithIndent r ext litems (indent + 1)
    let rest ← listItemChildrenFold r ext cs indent
    pure (rest.1, "\n" ++ nested ++ rest.2)
  | c :: cs, indent => do
    let s ← RenderNode r ext c
    let rest ← listItemChildrenFold r ext cs indent
    pure (s ++ rest.1, rest.2)
termination_by cs _ => (sizeOf cs, 0)

/-- The item loop of `renderListWithIndent` (source lines 325-342). -/
def renderListWithIndentLoop (r : Renderer) (ext : Ext) :
    List Node → ℕ → Option String
  | [], _ => some ""
  | .listItem bullet status children :: items, indent => do
    let s ← renderListItem r ext bullet status children indent
    let rest ← renderListWithIndentLoop r ext items indent
    pure (s ++ "\n" ++ rest)
  | .descriptiveListItem term details :: items, indent => do
    let indentStr := repeatStr "  " indent
    let termS := renderInlineNodes r ext term
    let detailsS := renderInlineNodes r ext details
    let rest ← renderListWithIndentLoop r ext items indent
    pure (indentStr ++ r.styles.ListBullet.render "•" ++ " "
      ++ r.styles.DescTerm.render termS ++ " "
      ++ r.styles.DescSeparator.render "::" ++ " "
      ++ r.styles.ListItem.render detailsS ++ "\n" ++ rest)
  | _ :: items, indent => renderListWithIndentLoop r ext items indent
termination_by items _ => (sizeOf items, 1)

/-- `renderListWithIndent` from `ui/render.go`: the loop's output with a
trailing newline trimmed. -/
def renderListWithIndent (r : Renderer) (ext : Ext) (items : List Node) (indent : ℕ) :
    Option String := do
  let s ← renderListWithIndentLoop r ext items indent
  pure (trimSuffixNewline s)
termination_by (sizeOf items, 2)

end

/-! ### `ui/model.go`: animation state, the spring tick, and the compositors -/

/-- `AnimationType` from `ui/model.go`. -/
inductive AnimationType where
  | AnimNone
  | AnimWaveRipple
  | AnimPoof
  deriving DecidableEq

/-- The subset of the bubbletea `Model` that the animation code reads and
writes: window dimensions and the animation state fields. -/
structure Model where
  width : ℕ
  height : ℕ
  animType : AnimationType
  animValue : ℚ
  animVelocity : ℚ
  animTarget : ℚ
  animFromContent : String
  animToContent : String

/-- The `abs` helper at the bottom of `ui/model.go`. -/
def absQ (x : ℚ) : ℚ :=
  if x < 0 then -x else x

/-- The `animTickMsg` arm of `Update` (`ui/model.go` lines 166-182).
`springUpdate` is the external `harmonica.Spring.Update` capability
`(value, velocity, target) ↦ (value, velocity)`.  The returned `Bool` records
whether another tick was scheduled (`cmds = append(cmds, animTick())`). -/
def updateAnimTick (springUpdate : ℚ → ℚ → ℚ → ℚ × ℚ) (m : Model) : Model × Bool :=
  if m.animType ≠ AnimationType.AnimNone then
    let p := springUpdate m.animValue m.animVelocity m.animTarget
    if p.1 > 0.99 ∧ absQ p.2 < 0.005 then
      ({ m with
          animValue := 1.0
          animVelocity := 0.0
          animType := AnimationType.AnimNone
          animFromContent := ""
          animToContent := "" }, false)
    else
      ({ m with animValue := p.1, animVelocity := p.2 }, true)
  else (m, false)

/-- The escape-terminator test used throughout `ui/model.go`:
`(r >= 'a' && r <= 'z') || (r >= 'A' && r <= 'Z')`. -/
def asciiLetter (c : Char) : Bool :=
  decide (('a' ≤ c ∧ c ≤ 'z') ∨ ('A' ≤ c ∧ c ≤ 'Z'))

/-- The character loop of `stripANSI` (`ui/model.go` lines 372-389). -/
def stripANSIList : List Char → Bool → List Char
  | [], _ => []
  | c :: rest, inEscape =>
    if c = '\x1b' then stripANSIList rest true
    else if inEscape then
      if asciiLetter c then stripANSIList rest false
      else stripANSIList rest true
    else c :: stripANSIList rest inEscape

/-- `stripANSI` from `ui/model.go`. -/
def stripANSI (s : String) : String :=
  String.mk (stripANSIList s.toList false)

/-! #### Wave-reveal compositor (`applyWaveRipple`, `ui/model.go` 392-502)

The source classifies each visual cell by the float64 Euclidean distance
`dist = √((col-cx)² + (y-cy)²)` from the screen center against thresholds
that are all of the form `coef · maxDist` with `maxDist = √(cx² + cy²)`:
* revealed interior: `dist < waveRadius - waveWidth`, where
  `waveRadius = animValue · maxDist · 1.15` and `waveWidth = maxDist · 0.12`,
  i.e. `coef = 1.15·a - 0.12`;
* wave crest: `dist < waveRadius`, i.e. `coef = 1.15·a`;
* crest bands: `wavePos = (waveRadius - dist)/waveWidth > 0.7` rearranges
  (for `waveWidth > 0`, the only case in which the crest is reachable) to
  `dist < maxDist·(1.15·a - 0.7·0.12)`, and likewise for the `0.4` band.
These comparisons of non-negative square roots are decided exactly by
comparing squares, which `distLtCoef` does in `ℚ`. -/

/-- Exact decision of `√((col-cx)² + (y-cy)²) < coef · √(cx² + cy²)`:
both sides are non-negative, so the comparison holds iff the right side is
positive and the squares compare. -/
def distLtCoef (coef : ℚ) (cx cy col y : ℤ) : Bool :=
  decide (0 < (cx : ℚ) ^ 2 + (cy : ℚ) ^ 2 ∧ 0 < coef ∧
    ((col : ℚ) - (cx : ℚ)) ^ 2 + ((y : ℚ) - (cy : ℚ)) ^ 2
      < ((cx : ℚ) ^ 2 + (cy : ℚ) ^ 2) * coef ^ 2)

/-- `dist < waveRadius - waveWidth`: the cell is strictly inside the revealed
region. -/
def waveInsideRevealed (a : ℚ) (cx cy y col : ℤ) : Bool :=
  distLtCoef (1.15 * a - 0.12) cx cy col y

/-- `dist < waveRadius`: the cell is on the wave crest (when not revealed). -/
def waveOnCrest (a : ℚ) (cx cy y col : ℤ) : Bool :=
  distLtCoef (1.15 * a) cx cy col y

/-- The blue color escape strings of `applyWaveRipple`. -/
def blueLight : String := "\x1b[38;2;122;162;247m"

/-- Medium blue of the wave crest. -/
def blueMed : String := "\x1b[38;2;86;95;137m"

/-- Dark blue of the wave crest. -/
def blueDark : String := "\x1b[38;2;59;66;97m"

/-- The `reset` escape string. -/
def ansiReset : String := "\x1b[0m"

/-- The crest glyph chosen by the `wavePos` band (`wavePos > 0.7`,
`wavePos > 0.4`, else), in the rearranged squared form described above. -/
def waveGlyph (a : ℚ) (cx cy y col : ℤ) : String :=
  if distLtCoef (1.15 * a - 0.7 * 0.12) cx cy col y then blueLight ++ "░" ++ ansiReset
  else if distLtCoef (1.15 * a - 0.4 * 0.12) cx cy col y then blueMed ++ "▒" ++ ansiReset
  else blueDark ++ "▓" ++ ansiReset

/-- The padding loop of `applyWaveRipple` (source lines 478-498): columns from
`col` up to `width` are filled with a blank (revealed or hidden) or a crest
glyph. -/
def wavePadding (a : ℚ) (cx cy : ℤ) (width : ℕ) (y col : ℤ) : List Char :=
  ((List.range ((width : ℤ) - col).toNat).map fun i =>
    let c := col + (i : ℤ)
    if waveInsideRevealed a cx cy y c then [' ']
    else if waveOnCrest a cx cy y c then (waveGlyph a cx cy y c).toList
    else [' ']).flatten

/-- The character loop of `applyWaveRipple` for one line (source lines
427-475), with the visual-column counter, the in-escape flag and the escape
buffer as explicit state; when the characters run out, the padding loop
completes the frame line. -/
def waveLineLoop (a : ℚ) (cx cy : ℤ) (width : ℕ) (y : ℤ) :
    List Char → ℤ → Bool → List Char → List Char
  | [], col, _, _ => wavePadding a cx cy width y col
  | c :: rest, col, inEscape, escapeSeq =>
    if c = '\x1b' then
      waveLineLoop a cx cy width y rest col true ['\x1b']
    else if inEscape then
      let esc := escapeSeq ++ [c]
      if asciiLetter c then
        (if waveInsideRevealed a cx cy y col then esc else [])
          ++ waveLineLoop a cx cy width y rest col false esc
      else
        waveLineLoop a cx cy width y rest col true esc
    else
      (if waveInsideRevealed a cx cy y col then [c]
       else if waveOnCrest a cx cy y col then (waveGlyph a cx cy y col).toList
       else [' '])
        ++ waveLineLoop a cx cy width y rest (col + 1) inEscape escapeSeq

/-- `applyWaveRipple` from `ui/model.go`: the near-completion short-circuit,
then the per-line scan with `centerX = width/2`, `centerY = height/2`. -/
def applyWaveRipple (m : Model) (content : String) : String :=
  if m.animValue > 0.95 then content
  else
    let cx : ℤ := (m.width / 2 : ℕ)
    let cy : ℤ := (m.height / 2 : ℕ)
    let lines := content.splitOn "\n"
    String.intercalate "\n" (lines.enum.map fun p =>
      String.mk (waveLineLoop m.animValue cx cy m.width (p.1 : ℤ) p.2.toList 0 false []))

/-! #### Poof transition compositor (`applyPoofToViewport`, `ui/model.go`
505-617) -/

/-- `poofChars` from `ui/model.go`. -/
def poofChars : List Char := ['·', '∘', '°', '⋅', '✦', '✧', '∗', '⁕', '※', ' ']

/-- Go's `int(x)` float-to-int conversion: truncation toward zero. -/
def goTrunc (q : ℚ) : ℤ :=
  if q < 0 then -⌊-q⌋ else ⌊q⌋

/-- External capabilities of the poof compositor: `sqrtQ` models `math.Sqrt`
(the reals restricted to the rationals the model computes with), and the two
random draws per cell are modelled as oracles indexed by the cell position:
`randInt x y` is the cell's `secureRandInt(100)` draw and `randGlyph x y` the
rune a `secureRandRune(poofChars)` call would return. -/
structure PoofEnv where
  sqrtQ : ℚ → ℚ
  randInt : ℕ → ℕ → ℕ
  randGlyph : ℕ → ℕ → Char

/-- The local-progress computation of the poof cell loop (source lines
575-586): the global progress minus the position-based phase offset
`dist/maxDist · 0.2`, clamped to `[0, 1]` by the source's if-chain. -/
def poofLocalAnim (animValue dist maxDist : ℚ) : ℚ :=
  let distFactor := dist / maxDist * 0.2
  let localAnim := animValue - distFactor
  if localAnim < 0 then 0
  else if localAnim > 1 then 1
  else localAnim

/-- The three-phase cell logic of `applyPoofToViewport` (source lines
588-612), as a function of the cell's local progress, its from/to characters,
the cell's uniform draw in `[0, 100)` and the scatter glyph the random-rune
draw would produce. -/
def poofCell (localAnim : ℚ) (fromR toR : Char) (draw : ℕ) (glyph : Char) : Char :=
  if localAnim < 0.3 then
    let scatterChance := localAnim / 0.3
    if (draw : ℤ) < goTrunc (scatterChance * 70) then glyph else fromR
  else if localAnim < 0.7 then
    if draw < 75 then glyph else ' '
  else
    let reformProgress := (localAnim - 0.7) / 0.3
    if (draw : ℤ) < goTrunc (reformProgress * 100) then toR else glyph

/-- The grid traversal of `applyPoofToViewport` (source lines 511-616):
line splitting, styling stripped for visual addressing, line/column extents
padded to cover both contents and the frame width, and the per-cell
three-phase logic. -/
def applyPoofBody (env : PoofEnv) (m : Model) (fromContent toContent : String) :
    String :=
  let fromLines := fromContent.splitOn "\n"
  let toLines := toContent.splitOn "\n"
  let fromClean := fromLines.map stripANSI
  let toClean := toLines.map stripANSI
  let maxLines := if toLines.length > fromLines.length then toLines.length
    else fromLines.length
  let cx : ℤ := (m.width / 2 : ℕ)
  let cy : ℤ := (maxLines / 2 : ℕ)
  let maxDist := env.sqrtQ ((cx : ℚ) ^ 2 + (cy : ℚ) ^ 2)
  let maxDist := if maxDist < 1 then 1 else maxDist
  String.intercalate "\n" ((List.range maxLines).map fun y =>
    let fromLineClean := fromClean.getD y ""
    let toLineClean := toClean.getD y ""
    let fromRunes := fromLineClean.toList
    let toRunes := toLineClean.toList
    let maxCols := if toRunes.length > fromRunes.length then toRunes.length
      else fromRunes.length
    let maxCols := if maxCols < m.width then m.width else maxCols
    String.mk ((List.range maxCols).map fun x =>
      let fromR := fromRunes.getD x ' '
      let toR := toRunes.getD x ' '
      let dist := env.sqrtQ (((x : ℚ) - (cx : ℚ)) ^ 2 + ((y : ℚ) - (cy : ℚ)) ^ 2)
      let localAnim := poofLocalAnim m.animValue dist maxDist
      poofCell localAnim fromR toR (env.randInt x y) (env.randGlyph x y)))

/-- `applyPoofToViewport` from `ui/model.go`: the near-completion
short-circuit returning the target content, then the grid traversal. -/
def applyPoofToViewport (env : PoofEnv) (m : Model) (fromContent toContent : String) :
    String :=
  if m.animValue > 0.95 then toContent
  else applyPoofBody env m fromContent toContent

/-! ### Concrete fixtures used by witnesses and counterexamples -/

/-- A concrete style capability: the identity, i.e. a color profile in which
styling adds no escape codes. -/
def idStyle : Style := { render := id, renderW := fun _ s => s }

/-- A concrete `Styles` value built from `idStyle`. -/
def idStyles : Styles :=
  { Done := idStyle, Todo := idStyle, Priority := idStyle, Tag := idStyle,
    Heading1 := idStyle, Heading2 := idStyle, Heading3 := idStyle,
    Heading4 := idStyle, BlockHeader := idStyle, CodeBlock := idStyle,
    Quote := idStyle, Example := idStyle, Verse := idStyle, Center := idStyle,
    Paragraph := idStyle, ListBullet := idStyle, ListItem := idStyle,
    CheckboxDone := idStyle, CheckboxHalfDone := idStyle,
    CheckboxEmpty := idStyle, DescTerm := idStyle, DescSeparator := idStyle,
    TableBorder := idStyle, TableHeader := idStyle, TableCell := idStyle,
    HRule := idStyle, Keyword := idStyle, KeywordValue := idStyle,
    DrawerHeader := idStyle, Property := idStyle, Timestamp := idStyle,
    Scheduled := idStyle, Deadline := idStyle, Closed := idStyle,
    Bold := idStyle, Italic := idStyle, Underline := idStyle,
    Verbatim := idStyle, InlineCode := idStyle, Strikethrough := idStyle,
    Statistics := idStyle, Link := idStyle, FootnoteLabel := idStyle,
    FootnoteContent := idStyle, FootnoteRef := idStyle }

/-- A concrete external-capability value: no highlighter, and `%v` formatting
that returns the formatting string carried by an `unknown` node (for any
other node kind the dispatchers never consult it on the paths exercised
here, so it is left empty). -/
def extFix : Ext :=
  { chromaFormat := fun _ _ => none,
    goFmt := fun n => match n with
      | .unknown repr => repr
      | _ => "" }

/-- A concrete renderer at width 80. -/
def rFix : Renderer := NewRenderer idStyles 80

/-- A concrete model mid-animation at full progress. -/
def mDone : Model :=
  { width := 10, height := 4, animType := AnimationType.AnimWaveRipple,
    animValue := 1, animVelocity := 0, animTarget := 1,
    animFromContent := "", animToContent := "" }

/-- A concrete idle model (no active animation). -/
def mIdle : Model :=
  { width := 10, height := 4, animType := AnimationType.AnimNone,
    animValue := 1, animVelocity := 0, animTarget := 1,
    animFromContent := "", animToContent := "" }

/-- A concrete poof environment: exact square roots are irrelevant to the
short-circuit path, so a trivial oracle suffices. -/
def envFix : PoofEnv :=
  { sqrtQ := fun _ => 0, randInt := fun _ _ => 0, randGlyph := fun _ _ => '·' }

/-! ### Claims -/

/-- C4: on an animation tick with an active animation, if the updated
progress exceeds `1 - 0.01` and the updated absolute velocity is below
`0.005`, the state snaps to value exactly 1.0 and velocity exactly 0.0 and
the animation deactivates; and a tick with no active animation leaves the
model unchanged (and schedules nothing). -/
theorem C4_anim_tick_snap_and_idle_noop :
    (∀ (springUpdate : ℚ → ℚ → ℚ → ℚ × ℚ) (m : Model),
      m.animType ≠ AnimationType.AnimNone →
      (springUpdate m.animValue m.animVelocity m.animTarget).1 > 1 - 0.01 →
      absQ (springUpdate m.animValue m.animVelocity m.animTarget).2 < 0.005 →
      updateAnimTick springUpdate m =
        ({ m with
            animValue := 1.0
            animVelocity := 0.0
            animType := AnimationType.AnimNone
            animFromContent := ""
            animToContent := "" }, false))
    ∧ (∀ (springUpdate : ℚ → ℚ → ℚ → ℚ × ℚ) (m : Model),
      m.animType = AnimationType.AnimNone →
      updateAnimTick springUpdate m = (m, false)) := by
  constructor
  · intro springUpdate m hActive hVal hVel
    have hVal' : (springUpdate m.animValue m.animVelocity m.animTarget).1 > 0.99 := by
      calc (0.99 : ℚ) = 1 - 0.01 := by norm_num
        _ < _ := hVal
    unfold updateAnimTick
    rw [if_pos hActive, if_pos ⟨hVal', hVel⟩]
  · intro springUpdate m hIdle
    unfold updateAnimTick
    rw [if_neg (by simp [hIdle])]

/-- Witness for C4 at a concrete spring and concrete models. -/
theorem C4_anim_tick_snap_and_idle_noop_witness :
    updateAnimTick (fun _ _ _ => (1, 0)) mDone =
      ({ mDone with
          animValue := 1.0
          animVelocity := 0.0
          animType := AnimationType.AnimNone
          animFromContent := ""
          animToContent := "" }, false)
    ∧ updateAnimTick (fun _ _ _ => (1, 0)) mIdle = (mIdle, false) :=
  ⟨C4_anim_tick_snap_and_idle_noop.1 (fun _ _ _ => (1, 0)) mDone
      (by decide) (by norm_num) (by norm_num [absQ]),
   C4_anim_tick_snap_and_idle_noop.2 (fun _ _ _ => (1, 0)) mIdle rfl⟩

/-- C6: the wave-reveal compositor at progress above 0.95 (in particular at
progress 1.0) returns the input content unmodified. -/
theorem C6_wave_shortcircuit_identity (m : Model) (content : String)
    (h : m.animValue > 0.95) : applyWaveRipple m content = content := by
  unfold applyWaveRipple
  rw [if_pos h]

/-- Witness for C6 at progress exactly 1.0. -/
theorem C6_wave_shortcircuit_identity_witness :
    (mDone.animValue > 0.95) ∧ applyWaveRipple mDone "hello\nworld" = "hello\nworld" :=
  ⟨by norm_num [mDone], C6_wave_shortcircuit_identity mDone "hello\nworld" (by norm_num [mDone])⟩

/-- C7: the poof compositor at progress above 0.95 (in particular at progress
1.0) returns the target content unmodified, so its stripped output equals the
stripped target content. -/
theorem C7_poof_shortcircuit_converges (env : PoofEnv) (m : Model)
    (fromContent toContent : String) (h : m.animValue > 0.95) :
    applyPoofToViewport env m fromContent toContent = toContent
    ∧ stripANSI (applyPoofToViewport env m fromContent toContent)
        = stripANSI toContent := by
  have hEq : applyPoofToViewport env m fromContent toContent = toContent := by
    unfold applyPoofToViewport
    rw [if_pos h]
  exact ⟨hEq, by rw [hEq]⟩

/-- Witness for C7 at progress exactly 1.0 with styled target content. -/
theorem C7_poof_shortcircuit_converges_witness :
    applyPoofToViewport envFix mDone "old" "\x1b[1mnew\x1b[0m" = "\x1b[1mnew\x1b[0m"
    ∧ stripANSI (applyPoofToViewport envFix mDone "old" "\x1b[1mnew\x1b[0m")
        = stripANSI "\x1b[1mnew\x1b[0m" :=
  C7_poof_shortcircuit_converges envFix mDone "old" "\x1b[1mnew\x1b[0m"
    (by norm_num [mDone])

/-- Counterexample to C1 as stated: the inline dispatcher's default branch is
`fmt.Sprintf("%v", n)`, not the empty string.  For a node of an unsupported
type (any Go struct value), `%v` produces a non-empty rendering such as
`{...}`; here the `unknown` node carries that rendering. -/
theorem C1_counterexample :
    renderInlineNode rFix extFix (.unknown "\x7bComment\x7d") = "\x7bComment\x7d"
    ∧ renderInlineNode rFix extFix (.unknown "\x7bComment\x7d") ≠ "" := by
  constructor
  · simp [renderInlineNode, extFix]
  · simp [renderInlineNode, extFix]

/-- C1 (amended): a node of an unsupported kind renders as the empty string in
the block-level dispatcher `RenderNode`, but the inline dispatcher
`renderInlineNode` renders it as its default `%v` string representation
(generally non-empty) instead. -/
theorem C1_unknown_node_dispatch (r : Renderer) (ext : Ext) (repr : String) :
    RenderNode r ext (.unknown repr) = some ""
    ∧ renderInlineNode r ext (.unknown repr) = ext.goFmt (.unknown repr) := by
  constructor
  · simp [RenderNode]
  · simp [renderInlineNode]

/-- Counterexample to C2 as stated: `renderHorizontalRule` repeats the rule
glyph `r.width - 4` times with no clamp, so at width 0 the count is negative
and `strings.Repeat` panics. -/
theorem C2_counterexample :
    renderHorizontalRule { styles := idStyles, width := 0 } = none := rfl

/-- C2 (amended): the source-block header/footer widths are clamped
(`headerWidth` to at least 10, `lineLen` to at least 0), so `renderSourceBlock`
never performs a negative-count repeat for any width; but the horizontal rule
is unclamped: its repeat count `width - 4` is non-negative exactly when
`width ≥ 4`, and the rule panics for narrower widths. -/
theorem C2_width_clamping (r : Renderer) :
    (∀ (ext : Ext) (parameters : List String) (children : List Node),
      ∃ s, renderSourceBlock r ext parameters children = some s)
    ∧ (4 ≤ r.width → ∃ s, renderHorizontalRule r = some s)
    ∧ (r.width < 4 → renderHorizontalRule r = none) := by
  refine ⟨?_, ?_, ?_⟩
  · intro ext parameters children
    simp only [renderSourceBlock, goRepeat, bind, Option.bind]
    split_ifs <;> simp_all <;> omega
  · intro h
    simp only [renderHorizontalRule, goRepeat]
    rw [if_neg (by omega)]
    exact ⟨_, rfl⟩
  · intro h
    simp only [renderHorizontalRule, goRepeat]
    rw [if_pos (by omega)]
    rfl

/-- Witness for C2 (amended) at concrete widths 80, 4 and 3. -/
theorem C2_width_clamping_witness :
    (∃ s, renderSourceBlock rFix extFix ["go"] [.text "x"] = some s)
    ∧ (∃ s, renderHorizontalRule rFix = some s)
    ∧ renderHorizontalRule { styles := idStyles, width := 3 } = none :=
  ⟨(C2_width_clamping rFix).1 extFix ["go"] [.text "x"],
   (C2_width_clamping rFix).2.1 (by decide),
   (C2_width_clamping { styles := idStyles, width := 3 }).2.2 (by decide)⟩

/-- All-separator tables contribute nothing to the width pass. -/
theorem tableColWidthsLoop_all_special (r : Renderer) (ext : Ext)
    (rows : List TableRow) (acc : List ℕ)
    (h : ∀ row ∈ rows, row.isSpecial) :
    tableColWidthsLoop r ext rows acc = acc := by
  induction rows with
  | nil => rfl
  | cons row rest ih =>
    have hrow := h row (by simp)
    simp only [tableColWidthsLoop, hrow, if_pos]
    exact ih fun q hq => h q (by simp [hq])

/-- C10: `renderTable` returns the empty string when the table has no rows,
and when every row is a separator row (no column widths computable). -/
theorem C10_degenerate_tables_render_empty (r : Renderer) (ext : Ext) :
    renderTable r ext [] = ""
    ∧ (∀ rows : List TableRow, (∀ row ∈ rows, row.isSpecial) →
        renderTable r ext rows = "") := by
  constructor
  · rfl
  · intro rows h
    rcases rows with _ | ⟨row, rest⟩
    · rfl
    · have hcw : tableColWidths r ext (row :: rest) = [] :=
        tableColWidthsLoop_all_special r ext (row :: rest) [] h
      simp [renderTable, hcw]

/-- Witness for C10 at a concrete one-separator-row table. -/
theorem C10_degenerate_tables_render_empty_witness :
    renderTable rFix extFix [(true, [[Node.text "a"]])] = "" :=
  (C10_degenerate_tables_render_empty rFix extFix).2
    [(true, [[Node.text "a"]])] (by decide)

/-! ### C5: the inactive-timestamp bracket scan -/

/-- The claim's condition on one bracket content, modelled from the spec's
words: at least 10 characters, and the first 10 characters have `'-'` at
positions 4 and 7 and a digit at every other position. -/
def claimTsShape (content : List Char) : Bool :=
  decide (10 ≤ content.length)
    && (List.range 10).all fun i => tsPosOK i (content.getD i ' ')

/-- The scan loop with the claim's condition in place of the source's
(otherwise identical, for the refinement comparison). -/
def specScanTsLoop (styleTs : String → String) : ℕ → List Char → List Char
  | 0, remaining => remaining
  | fuel + 1, remaining =>
    match remaining.findIdx? (· = '[') with
    | none => remaining
    | some start =>
      match (remaining.drop start).findIdx? (· = ']') with
      | none => remaining
      | some endRel =>
        let e := endRel + start
        let tsContent := (remaining.drop (start + 1)).take (e - (start + 1))
        if claimTsShape tsContent then
          remaining.take start
            ++ (styleTs ("[" ++ String.mk tsContent ++ "]")).toList
            ++ specScanTsLoop styleTs fuel (remaining.drop (e + 1))
        else
          remaining.take (e + 1) ++ specScanTsLoop styleTs fuel (remaining.drop (e + 1))

/-- The bracket scan as the claim describes it. -/
def specRenderInactiveTimestamps (styleTs : String → String) (content : String) :
    String :=
  String.mk (specScanTsLoop styleTs (content.length + 1) content.toList)

/-- The position-check loop agrees with a universally quantified position
condition (positions shifted by the running index `k`). -/
theorem checkTsAt_eq_true_iff (l : List Char) (k : ℕ) :
    checkTsAt l k = true ↔ ∀ i < l.length, tsPosOK (k + i) (l.getD i ' ') = true := by
  induction l generalizing k with
  | nil => simp [checkTsAt]
  | cons c cs ih =>
    simp only [checkTsAt, Bool.and_eq_true, ih (k + 1), List.length_cons]
    constructor
    · rintro ⟨h0, h1⟩ i hi
      cases i with
      | zero => simpa [List.getD] using h0
      | succ j =>
        have h := h1 j (by omega)
        have e : k + 1 + j = k + (j + 1) := by omega
        rw [e] at h
        simpa [List.getD] using h
    · intro h
      refine ⟨?_, fun j hj => ?_⟩
      · simpa [List.getD] using h 0 (by omega)
      · have h := h (j + 1) (by omega)
        have e : k + (j + 1) = k + 1 + j := by omega
        rw [e] at h
        simpa [List.getD] using h

/-- `getD` of a `take` prefix agrees with `getD` of the list inside the
prefix. -/
theorem getD_take_of_lt {α : Type} (l : List α) (n i : ℕ) (d : α) (h : i < n) :
    (l.take n).getD i d = l.getD i d := by
  simp [List.getD, List.getElem?_take, h]

/-- The source's styling condition on a bracket content coincides with the
claim's condition. -/
theorem tsCond_iff (ts : List Char) :
    (10 ≤ ts.length ∧ isInactiveTimestamp ts = true) ↔ claimTsShape ts = true := by
  unfold isInactiveTimestamp claimTsShape
  constructor
  · rintro ⟨hlen, hts⟩
    rw [if_neg (by omega), checkTsAt_eq_true_iff] at hts
    simp only [Bool.and_eq_true, decide_eq_true_eq, List.all_eq_true, List.mem_range]
    refine ⟨hlen, fun i hi => ?_⟩
    have hlt : i < (ts.take 10).length := by
      rw [List.length_take]
      omega
    have h := hts i hlt
    rwa [Nat.zero_add, getD_take_of_lt ts 10 i ' ' hi] at h
  · intro h
    simp only [Bool.and_eq_true, decide_eq_true_eq, List.all_eq_true,
      List.mem_range] at h
    obtain ⟨hlen, hall⟩ := h
    refine ⟨hlen, ?_⟩
    rw [if_neg (by omega), checkTsAt_eq_true_iff]
    intro i hi
    rw [List.length_take] at hi
    have hi10 : i < 10 := by omega
    rw [Nat.zero_add, getD_take_of_lt ts 10 i ' ' hi10]
    exact hall i hi10

/-- The source scan loop and the claim's scan loop agree. -/
theorem scanTsLoop_eq_spec (styleTs : String → String) :
    ∀ (fuel : ℕ) (remaining : List Char),
      scanTsLoop styleTs fuel remaining = specScanTsLoop styleTs fuel remaining := by
  intro fuel
  induction fuel with
  | zero => intro remaining; rfl
  | succ fuel ih =>
    intro remaining
    cases h1 : remaining.findIdx? (· = '[') with
    | none => simp [scanTsLoop, specScanTsLoop, h1]
    | some start =>
      cases h2 : (remaining.drop start).findIdx? (· = ']') with
      | none => simp [scanTsLoop, specScanTsLoop, h1, h2]
      | some endRel =>
        simp only [scanTsLoop, specScanTsLoop, h1, h2]
        rw [ih]
        exact if_congr (tsCond_iff _) rfl rfl

/-- A concrete timestamp style for the examples: visible markers. -/
def tsMark (s : String) : String := "<TS>" ++ s ++ "</TS>"

/-- C5: for every plain-text string, the bracket scan styles a bracketed
segment exactly when the content between `[` and the first following `]` is
at least 10 characters long with `'-'` at positions 4 and 7 and digits at
every other position of its first 10 characters; every other bracketed
segment passes through verbatim.  In particular `"Closed [2024-01-15 Mon]"`
has its bracketed segment styled and `"Note [not a date]"` is left
verbatim. -/
theorem C5_inactive_timestamp_bracket_scan :
    (∀ (styleTs : String → String) (content : String),
      renderInactiveTimestamps styleTs content
        = specRenderInactiveTimestamps styleTs content)
    ∧ renderInactiveTimestamps tsMark "Closed [2024-01-15 Mon]"
        = "Closed " ++ tsMark "[2024-01-15 Mon]"
    ∧ renderInactiveTimestamps tsMark "Note [not a date]" = "Note [not a date]" := by
  refine ⟨?_, by decide, by decide⟩
  intro styleTs content
  unfold renderInactiveTimestamps specRenderInactiveTimestamps
  rw [scanTsLoop_eq_spec]

/-! ### C3: table column widths -/

/-- How one cell's raw rendered length (if the row has that column) merges
into the stored width for that column (if one exists yet). -/
def widthMerge : Option ℕ → Option ℕ → Option ℕ
  | none, a? => a?
  | some n, some a => some (max a (clampW n))
  | some n, none => some (clampW n)

/-- The raw rendered inline-content lengths contributed to column `j`, over
the non-separator rows that have a `j`-th cell, in row order. -/
def colCellLens (r : Renderer) (ext : Ext) (rows : List TableRow) (j : ℕ) : List ℕ :=
  (rows.filter fun row => !row.isSpecial).filterMap fun row =>
    (row.columns[j]?).map fun col => (renderInlineNodes r ext col).length

/-- Folding a list of raw cell lengths into an optional stored width. -/
def mergeAll (a? : Option ℕ) : List ℕ → Option ℕ
  | [] => a?
  | n :: ns => mergeAll (widthMerge (some n) a?) ns

/-- The column width the claim describes: none when no non-separator row has
that column, else the maximum rendered length over those rows clamped below
to 3. -/
def specColWidth (r : Renderer) (ext : Ext) (rows : List TableRow) (j : ℕ) :
    Option ℕ :=
  match colCellLens r ext rows j with
  | [] => none
  | n :: ns => some (max 3 ((n :: ns).foldr max 0))

/-- Characterization of the inner column loop of the width pass. -/
theorem updateColWidthsFrom_getElem? (r : Renderer) (ext : Ext) :
    ∀ (cols : List (List Node)) (i : ℕ) (acc : List ℕ), i ≤ acc.length → ∀ j,
      (updateColWidthsFrom r ext cols i acc)[j]? =
        if j < i then acc[j]?
        else widthMerge ((cols[j - i]?).map fun col =>
          (renderInlineNodes r ext col).length) acc[j]? := by
  intro cols
  induction cols with
  | nil =>
    intro i acc h j
    simp only [updateColWidthsFrom, List.getElem?_nil, Option.map_none', widthMerge]
    split <;> rfl
  | cons col cols ih =>
    intro i acc h j
    simp only [updateColWidthsFrom]
    set w := clampW (renderInlineNodes r ext col).length with hw
    by_cases hlen : i ≥ acc.length
    · -- append branch: i = acc.length
      have hi : i = acc.length := by omega
      rw [if_pos hlen]
      rw [ih (i + 1) _ (by simp; omega) j]
      by_cases hj : j < i
      · rw [if_pos (by omega), if_pos hj]
        rw [List.getElem?_append_left (by omega)]
      · by_cases hj2 : j = i
        · subst hj2
          rw [if_pos (by omega), if_neg hj]
          have h1 : (acc ++ [w])[j]? = some w := by
            rw [List.getElem?_append_right (by omega)]
            simp [hi]
          have h2 : acc[j]? = none := List.getElem?_eq_none (by omega)
          rw [h1, h2]
          simp [widthMerge, Nat.sub_self, hw]
        · rw [if_neg (by omega), if_neg hj]
          have e : j - i = (j - (i + 1)) + 1 := by omega
          rw [e, List.getElem?_cons_succ]
          have h1 : (acc ++ [w])[j]? = none := List.getElem?_eq_none (by simp; omega)
          have h2 : acc[j]? = none := List.getElem?_eq_none (by omega)
          rw [h1, h2]
    · -- update/keep branch: i < acc.length
      rw [if_neg hlen]
      have hlt : i < acc.length := by omega
      have hgetD : acc.getD i 0 = acc[i] := by
        rw [List.getD_eq_getElem?_getD, List.getElem?_eq_getElem hlt]
        rfl
      have hset : ∀ (acc' : List ℕ), acc'.length = acc.length →
          (∀ k, k ≠ i → acc'[k]? = acc[k]?) →
          acc'[i]? = some (max acc[i] w) →
          (updateColWidthsFrom r ext cols (i + 1) acc')[j]?
            = if j < i then acc[j]?
              else widthMerge (((col :: cols)[j - i]?).map fun c =>
                (renderInlineNodes r ext c).length) acc[j]? := by
        intro acc' hl hne hat
        rw [ih (i + 1) acc' (by omega) j]
        by_cases hj : j < i
        · rw [if_pos (by omega), if_pos hj, hne j (by omega)]
        · by_cases hj2 : j = i
          · subst hj2
            rw [if_pos (by omega), if_neg hj, hat]
            rw [List.getElem?_eq_getElem hlt]
            simp [widthMerge, Nat.sub_self, ← hw]
          · rw [if_neg (by omega), if_neg hj, hne j (by omega)]
            have e : j - i = (j - (i + 1)) + 1 := by omega
            rw [e, List.getElem?_cons_succ]
      by_cases hbig : w > acc.getD i 0
      · rw [if_pos hbig]
        refine hset _ (by simp) (fun k hk => List.getElem?_set_ne (by omega)) ?_
        rw [List.getElem?_set_eq_of_lt w hlt]
        rw [hgetD] at hbig
        congr 1
        omega
      · rw [if_neg hbig]
        refine hset _ rfl (fun _ _ => rfl) ?_
        rw [List.getElem?_eq_getElem hlt]
        rw [hgetD] at hbig
        congr 1
        omega

/-- Characterization of the row loop of the width pass. -/
theorem tableColWidthsLoop_getElem? (r : Renderer) (ext : Ext) :
    ∀ (rows : List TableRow) (acc : List ℕ) (j : ℕ),
      (tableColWidthsLoop r ext rows acc)[j]?
        = mergeAll acc[j]? (colCellLens r ext rows j) := by
  intro rows
  induction rows with
  | nil => intro acc j; rfl
  | cons row rest ih =>
    intro acc j
    by_cases hs : row.isSpecial
    · rw [tableColWidthsLoop, if_pos hs, ih]
      unfold colCellLens
      rw [List.filter_cons_of_neg (by simp [hs])]
    · rw [tableColWidthsLoop, if_neg hs, ih]
      rw [updateColWidthsFrom_getElem? r ext row.columns 0 acc (by omega) j]
      rw [if_neg (by omega), Nat.sub_zero]
      unfold colCellLens
      rw [List.filter_cons_of_pos (by simp [hs]), List.filterMap_cons]
      cases hc : row.columns[j]? with
      | none => simp [widthMerge]
      | some col => simp [mergeAll]

/-- `mergeAll` seeded with a stored width is a fold of clamped maxima. -/
theorem mergeAll_some (a : ℕ) :
    ∀ ns : List ℕ, mergeAll (some a) ns
      = some (ns.foldl (fun x n => max x (clampW n)) a) := by
  intro ns
  induction ns generalizing a with
  | nil => rfl
  | cons n ns ih =>
    rw [mergeAll]
    show mergeAll (some (max a (clampW n))) ns = _
    rw [ih]
    rfl

/-- Folding clamped maxima from a clamped seed computes the claim's
`max 3 (max of the raw lengths)`. -/
theorem foldl_clampW_max (ns : List ℕ) :
    ∀ n : ℕ, ns.foldl (fun x m => max x (clampW m)) (clampW n)
      = max 3 ((n :: ns).foldr max 0) := by
  induction ns with
  | nil =>
    intro n
    simp [clampW_eq_max]
  | cons m ms ih =>
    intro n
    rw [List.foldl_cons]
    have h1 : max (clampW n) (clampW m) = clampW (max n m) := by
      simp [clampW_eq_max]
      omega
    rw [h1, ih (max n m)]
    simp only [List.foldr_cons]
    omega

/-- `mergeAll` from an empty stored width computes the claim's column
width. -/
theorem mergeAll_none_eq_spec (r : Renderer) (ext : Ext) (rows : List TableRow)
    (j : ℕ) : mergeAll none (colCellLens r ext rows j) = specColWidth r ext rows j := by
  unfold specColWidth
  cases colCellLens r ext rows j with
  | nil => rfl
  | cons n ns =>
    show mergeAll (some (clampW n)) ns = _
    rw [mergeAll_some, foldl_clampW_max]

/-- C3: the engine computes each column's effective width as the maximum over
all non-separator rows of the rendered inline-content length of that column's
cell, clamped below to 3; in particular rendered widths [5, 2, 8] yield
effective widths [5, 3, 8]. -/
theorem C3_table_column_widths :
    (∀ (r : Renderer) (ext : Ext) (rows : List TableRow) (j : ℕ),
      (tableColWidths r ext rows)[j]? = specColWidth r ext rows j)
    ∧ tableColWidths rFix extFix
        [(false, [[Node.text "aaaaa"], [Node.text "bb"], [Node.text "cccccccc"]])]
      = [5, 3, 8] := by
  constructor
  · intro r ext rows j
    rw [tableColWidths, tableColWidthsLoop_getElem?, List.getElem?_nil,
      mergeAll_none_eq_spec]
  · simp only [tableColWidths, tableColWidthsLoop, updateColWidthsFrom,
      renderInlineNodes, renderInlineNode, TableRow.isSpecial, TableRow.columns,
      rFix, extFix, NewRenderer, idStyles, idStyle]
    decide

/-! ### C8: escape gating in the wave compositor -/

/-- The exact squared comparison `distLtCoef` decides the source's float
comparison `dist < coef * maxDist` over the reals. -/
theorem distLtCoef_iff_sqrt (coef : ℚ) (cx cy col y : ℤ) :
    distLtCoef coef cx cy col y = true ↔
      Real.sqrt (((col : ℝ) - (cx : ℝ)) ^ 2 + ((y : ℝ) - (cy : ℝ)) ^ 2)
        < (coef : ℝ) * Real.sqrt ((cx : ℝ) ^ 2 + (cy : ℝ) ^ 2) := by
  unfold distLtCoef
  rw [decide_eq_true_eq]
  set D2 : ℝ := ((col : ℝ) - (cx : ℝ)) ^ 2 + ((y : ℝ) - (cy : ℝ)) ^ 2 with hD2
  set M2 : ℝ := (cx : ℝ) ^ 2 + (cy : ℝ) ^ 2 with hM2
  have hD2nn : 0 ≤ D2 := by positivity
  have hM2nn : 0 ≤ M2 := by positivity
  have hcast1 : ((0 : ℚ) < (cx : ℚ) ^ 2 + (cy : ℚ) ^ 2) ↔ 0 < M2 := by
    rw [hM2]
    constructor <;> intro h <;> exact_mod_cast h
  have hcast3 : (((col : ℚ) - (cx : ℚ)) ^ 2 + ((y : ℚ) - (cy : ℚ)) ^ 2
      < ((cx : ℚ) ^ 2 + (cy : ℚ) ^ 2) * coef ^ 2) ↔ D2 < M2 * (coef : ℝ) ^ 2 := by
    rw [hD2, hM2]
    constructor <;> intro h <;> exact_mod_cast h
  constructor
  · rintro ⟨hm, hc, hd⟩
    rw [hcast1] at hm
    rw [hcast3] at hd
    have hc' : (0 : ℝ) < (coef : ℝ) := by exact_mod_cast hc
    calc Real.sqrt D2 < Real.sqrt (M2 * (coef : ℝ) ^ 2) :=
          Real.sqrt_lt_sqrt hD2nn hd
      _ = (coef : ℝ) * Real.sqrt M2 := by
          rw [Real.sqrt_mul hM2nn, Real.sqrt_sq hc'.le, mul_comm]
  · intro h
    have hpos : 0 < (coef : ℝ) * Real.sqrt M2 :=
      lt_of_le_of_lt (Real.sqrt_nonneg D2) h
    have hc' : 0 < (coef : ℝ) := by
      by_contra hc
      push_neg at hc
      have : (coef : ℝ) * Real.sqrt M2 ≤ 0 :=
        mul_nonpos_of_nonpos_of_nonneg hc (Real.sqrt_nonneg M2)
      linarith
    have hM2pos : 0 < M2 := by
      rcases lt_or_eq_of_le hM2nn with hlt | heq
      · exact hlt
      · rw [← heq, Real.sqrt_zero, mul_zero] at h
        exact absurd h (not_lt.mpr (Real.sqrt_nonneg D2))
    refine ⟨hcast1.mpr hM2pos, by exact_mod_cast hc', hcast3.mpr ?_⟩
    have hsq := pow_lt_pow_left₀ h (Real.sqrt_nonneg D2) two_ne_zero
    rw [Real.sq_sqrt hD2nn, mul_pow, Real.sq_sqrt hM2nn] at hsq
    calc D2 < (coef : ℝ) ^ 2 * M2 := hsq
      _ = M2 * (coef : ℝ) ^ 2 := mul_comm _ _

/-- A letter terminator is not the escape byte. -/
theorem asciiLetter_ne_esc {t : Char} (ht : asciiLetter t = true) : t ≠ '\x1b' := by
  intro h
  subst h
  exact absurd ht (by decide)

/-- Inside an open escape sequence (buffer `buf`), the remaining
letter-free body and its letter terminator are consumed without advancing
the visual column, and the whole buffered sequence is emitted exactly when
the current cell is strictly inside the revealed region. -/
theorem waveLineLoop_escape_aux (a : ℚ) (cx cy : ℤ) (width : ℕ) (y : ℤ)
    (t : Char) (rest : List Char) (col : ℤ) (ht : asciiLetter t = true) :
    ∀ (body : List Char) (buf : List Char),
      (∀ c ∈ body, asciiLetter c = false ∧ c ≠ '\x1b') →
      waveLineLoop a cx cy width y (body ++ [t] ++ rest) col true buf
        = (if waveInsideRevealed a cx cy y col then buf ++ body ++ [t] else [])
          ++ waveLineLoop a cx cy width y rest col false (buf ++ body ++ [t]) := by
  intro body
  induction body with
  | nil =>
    intro buf _
    rw [List.nil_append, List.cons_append, List.nil_append, waveLineLoop]
    rw [if_neg (asciiLetter_ne_esc ht), if_pos rfl, if_pos ht]
    simp
  | cons c body ih =>
    intro buf hbody
    obtain ⟨hcl, hce⟩ := hbody c (by simp)
    rw [List.cons_append, List.cons_append, waveLineLoop]
    rw [if_neg hce, if_pos rfl, if_neg (by simp [hcl])]
    rw [ih (buf ++ [c]) (fun q hq => hbody q (by simp [hq]))]
    simp [List.append_assoc]

/-- C8: during the wave reveal, an escape sequence in the input (the escape
byte, a letter-free body, a letter terminator) is buffered and emitted in the
output exactly when the visual cell it styles — the cell at the current
visual column, which escape processing does not advance — is strictly inside
the revealed region; and "strictly inside" is exactly the source's float test
`dist < waveRadius - waveWidth` with `waveRadius = animValue·maxDist·1.15`,
`waveWidth = maxDist·0.12`, `maxDist = √(cx²+cy²)`, `cx = width/2`,
`cy = height/2`. -/
theorem C8_wave_escape_gating (m : Model) (y col : ℤ) (body rest : List Char)
    (t : Char) (inEsc : Bool) (buf : List Char)
    (hbody : ∀ c ∈ body, asciiLetter c = false ∧ c ≠ '\x1b')
    (ht : asciiLetter t = true) :
    (waveLineLoop m.animValue ((m.width / 2 : ℕ) : ℤ) ((m.height / 2 : ℕ) : ℤ)
        m.width y ('\x1b' :: (body ++ [t]) ++ rest) col inEsc buf
      = (if waveInsideRevealed m.animValue ((m.width / 2 : ℕ) : ℤ)
            ((m.height / 2 : ℕ) : ℤ) y col
         then '\x1b' :: (body ++ [t]) else [])
        ++ waveLineLoop m.animValue ((m.width / 2 : ℕ) : ℤ)
            ((m.height / 2 : ℕ) : ℤ) m.width y rest col false
            ('\x1b' :: (body ++ [t])))
    ∧ (waveInsideRevealed m.animValue ((m.width / 2 : ℕ) : ℤ)
          ((m.height / 2 : ℕ) : ℤ) y col = true ↔
        Real.sqrt (((col : ℝ) - (((m.width / 2 : ℕ) : ℤ) : ℝ)) ^ 2
            + ((y : ℝ) - (((m.height / 2 : ℕ) : ℤ) : ℝ)) ^ 2)
          < (m.animValue : ℝ)
              * Real.sqrt ((((m.width / 2 : ℕ) : ℤ) : ℝ) ^ 2
                + (((m.height / 2 : ℕ) : ℤ) : ℝ) ^ 2)
              * 1.15
            - Real.sqrt ((((m.width / 2 : ℕ) : ℤ) : ℝ) ^ 2
                + (((m.height / 2 : ℕ) : ℤ) : ℝ) ^ 2)
              * 0.12) := by
  constructor
  · rw [List.cons_append, waveLineLoop, if_pos rfl]
    rw [waveLineLoop_escape_aux m.animValue _ _ m.width y t rest col ht body ['\x1b'] hbody]
    simp
  · unfold waveInsideRevealed
    rw [distLtCoef_iff_sqrt]
    set s : ℝ :=
      Real.sqrt ((((m.width / 2 : ℕ) : ℤ) : ℝ) ^ 2
        + (((m.height / 2 : ℕ) : ℤ) : ℝ) ^ 2) with hs
    have heq : ((1.15 * m.animValue - 0.12 : ℚ) : ℝ) * s
        = (m.animValue : ℝ) * s * 1.15 - s * 0.12 := by
      push_cast
      ring
    rw [heq]

/-- Witness for C8 at a concrete escape sequence `ESC [31m` and cell. -/
theorem C8_wave_escape_gating_witness :
    waveLineLoop (1 : ℚ) ((10 / 2 : ℕ) : ℤ) ((4 / 2 : ℕ) : ℤ) 10 0
        ('\x1b' :: ((['[', '3', '1'] : List Char) ++ ['m']) ++ ['A']) 0 false []
      = (if waveInsideRevealed (1 : ℚ) ((10 / 2 : ℕ) : ℤ) ((4 / 2 : ℕ) : ℤ) 0 0
         then '\x1b' :: ((['[', '3', '1'] : List Char) ++ ['m']) else [])
        ++ waveLineLoop (1 : ℚ) ((10 / 2 : ℕ) : ℤ) ((4 / 2 : ℕ) : ℤ) 10 0 ['A'] 0
            false ('\x1b' :: ((['[', '3', '1'] : List Char) ++ ['m'])) :=
  (C8_wave_escape_gating mDone 0 0 ['[', '3', '1'] ['A'] 'm' false []
    (by decide) (by decide)).1

/-! ### C9: the poof per-cell phases -/

/-- `goTrunc` is monotone on non-negative arguments. -/
theorem goTrunc_mono_nonneg {a b : ℚ} (ha : 0 ≤ a) (hab : a ≤ b) :
    goTrunc a ≤ goTrunc b := by
  unfold goTrunc
  rw [if_neg (by linarith), if_neg (by linarith)]
  exact Int.floor_mono hab

/-- C9: a poof cell's local progress is the global progress minus
`dist/maxDist · 0.2` clamped to `[0, 1]`; cells with local progress below 0.3
emit the from-character unless the uniform draw falls under a threshold that
rises with local progress (scatter); cells in `[0.3, 0.7)` emit a scatter
glyph with constant probability 75% and a blank otherwise; cells at local
progress at least 0.7 emit the to-character with a probability rising with
local progress and a scatter glyph otherwise. -/
theorem C9_poof_cell_phases :
    (∀ animValue dist maxDist : ℚ,
      poofLocalAnim animValue dist maxDist
        = max 0 (min 1 (animValue - dist / maxDist * 0.2)))
    ∧ (∀ (l : ℚ) (fromR toR : Char) (draw : ℕ) (glyph : Char), l < 0.3 →
        poofCell l fromR toR draw glyph
          = if (draw : ℤ) < goTrunc (l / 0.3 * 70) then glyph else fromR)
    ∧ (∀ (l : ℚ) (fromR toR : Char) (draw : ℕ) (glyph : Char), 0.3 ≤ l → l < 0.7 →
        poofCell l fromR toR draw glyph = if draw < 75 then glyph else ' ')
    ∧ (∀ (l : ℚ) (fromR toR : Char) (draw : ℕ) (glyph : Char), 0.7 ≤ l →
        poofCell l fromR toR draw glyph
          = if (draw : ℤ) < goTrunc ((l - 0.7) / 0.3 * 100) then toR else glyph)
    ∧ (∀ l l' : ℚ, 0 ≤ l → l ≤ l' →
        goTrunc (l / 0.3 * 70) ≤ goTrunc (l' / 0.3 * 70))
    ∧ (∀ l l' : ℚ, 0.7 ≤ l → l ≤ l' →
        goTrunc ((l - 0.7) / 0.3 * 100) ≤ goTrunc ((l' - 0.7) / 0.3 * 100)) := by
  refine ⟨?_, ?_, ?_, ?_, ?_, ?_⟩
  · intro animValue dist maxDist
    simp only [poofLocalAnim]
    set x : ℚ := animValue - dist / maxDist * 0.2 with hx
    split_ifs with h1 h2
    · rw [min_eq_right (by linarith), max_eq_left (by linarith)]
    · rw [min_eq_left (by linarith), max_eq_right (by norm_num)]
    · rw [min_eq_right (by linarith), max_eq_right (by linarith)]
  · intro l fromR toR draw glyph h
    unfold poofCell
    rw [if_pos h]
  · intro l fromR toR draw glyph h1 h2
    unfold poofCell
    rw [if_neg (by linarith), if_pos h2]
  · intro l fromR toR draw glyph h
    unfold poofCell
    rw [if_neg (by linarith), if_neg (by linarith)]
  · intro l l' hl hll
    have e1 : l / 0.3 * 70 = l * (700 / 3) := by ring
    have e2 : l' / 0.3 * 70 = l' * (700 / 3) := by ring
    rw [e1, e2]
    exact goTrunc_mono_nonneg (mul_nonneg hl (by norm_num))
      (mul_le_mul_of_nonneg_right hll (by norm_num))
  · intro l l' hl hll
    have e1 : (l - 0.7) / 0.3 * 100 = (l - 0.7) * (1000 / 3) := by ring
    have e2 : (l' - 0.7) / 0.3 * 100 = (l' - 0.7) * (1000 / 3) := by ring
    rw [e1, e2]
    have h7 : (0 : ℚ) ≤ l - 0.7 := by linarith
    exact goTrunc_mono_nonneg (mul_nonneg h7 (by norm_num))
      (mul_le_mul_of_nonneg_right (by linarith) (by norm_num))

/-- Witness for C9 at concrete local-progress values in each phase. -/
theorem C9_poof_cell_phases_witness :
    poofLocalAnim 1 4 5 = max 0 (min 1 (1 - 4 / 5 * 0.2))
    ∧ poofCell 0.1 'a' 'b' 5 '·'
        = (if ((5 : ℕ) : ℤ) < goTrunc ((0.1 : ℚ) / 0.3 * 70) then '·' else 'a')
    ∧ poofCell 0.5 'a' 'b' 5 '·' = (if (5 : ℕ) < 75 then '·' else ' ')
    ∧ poofCell 0.8 'a' 'b' 5 '·'
        = (if ((5 : ℕ) : ℤ) < goTrunc (((0.8 : ℚ) - 0.7) / 0.3 * 100) then 'b' else '·')
    ∧ goTrunc ((0.1 : ℚ) / 0.3 * 70) ≤ goTrunc ((0.2 : ℚ) / 0.3 * 70)
    ∧ goTrunc (((0.7 : ℚ) - 0.7) / 0.3 * 100) ≤ goTrunc (((0.9 : ℚ) - 0.7) / 0.3 * 100) :=
  ⟨C9_poof_cell_phases.1 1 4 5,
   C9_poof_cell_phases.2.1 0.1 'a' 'b' 5 '·' (by norm_num),
   C9_poof_cell_phases.2.2.1 0.5 'a' 'b' 5 '·' (by norm_num) (by norm_num),
   C9_poof_cell_phases.2.2.2.1 0.8 'a' 'b' 5 '·' (by norm_num),
   C9_poof_cell_phases.2.2.2.2.1 0.1 0.2 (by norm_num) (by norm_num),
   C9_poof_cell_phases.2.2.2.2.2 0.7 0.9 (by norm_num) (by norm_num)⟩

end OrgCharm
